import Mathlib

/-!
Shallow embedding of the `delay` crate (AVR delay loops) and verification of
its specification claims.

The crate computes, at compile time, how many iterations of a fixed-cost
delay loop are needed to cover a requested number of CPU cycles, accounting
for the cycles the looping code itself consumes.  All arithmetic in the
source is on `u32`; we embed `u32` values as `Nat` together with explicit
wrap-around (`% 2^32`) at every operation that can overflow, and we model the
const-evaluation path (where Rust makes arithmetic overflow a build error)
with `Option`-valued checked operations.
-/

set_option autoImplicit false

/-- Modulus of the 32-bit unsigned integers used throughout the crate. -/
def U32_MOD : Nat := 4294967296

/-- Wrapping u32 multiplication. -/
def mul32 (a b : Nat) : Nat := a * b % U32_MOD

/-- Wrapping u32 addition. -/
def add32 (a b : Nat) : Nat := (a + b) % U32_MOD

/-- Wrapping u32 subtraction, valid for operands below `U32_MOD`. -/
def sub32 (a b : Nat) : Nat := (a + U32_MOD - b) % U32_MOD

/-- Checked u32 multiplication: `none` models the compile-time overflow
error raised by Rust const evaluation (the crate's macros force CTFE via
`const` items). -/
def chkMul (a b : Nat) : Option Nat :=
  if a * b < U32_MOD then some (a * b) else none

/-- The CPU frequency, from `src/lib.rs`: `CYCLES_PER_SECOND = 16_000_000`. -/
def CYCLES_PER_SECOND : Nat := 16000000

/-- From `src/lib.rs`: `CYCLES_PER_MICROS = CYCLES_PER_SECOND / 1_000_000`. -/
def CYCLES_PER_MICROS : Nat := CYCLES_PER_SECOND / 1000000

/-- Cycles one non-final loop iteration takes, from `src/lib.rs`. -/
def ATOM_DELAY_SUCCESSFUL_ITERATION_CYCLES : Nat := 16

/-- Cycles spent on the final failing loop-condition check, from `src/lib.rs`. -/
def ATOM_DELAY_FINAL_ITERATION_CYCLES : Nat := 7

/-- Cycles one atom takes, from `src/atoms/twenty_five_cycles.rs`:
`CYCLES_PER_ATOM = 25`. -/
def CYCLES_PER_ATOM : Nat := 25

/-- Embeds `iterations_required` from `src/atoms/twenty_five_cycles.rs`:
`cycles / CYCLES_PER_ATOM`, Rust integer division, which truncates. -/
def iterations_required (cycles : Nat) : Nat := cycles / CYCLES_PER_ATOM

/-- Embeds `extraneous_cycles_from_looping` from `src/lib.rs`:
`iteration_count * ATOM_DELAY_SUCCESSFUL_ITERATION_CYCLES +
ATOM_DELAY_FINAL_ITERATION_CYCLES` in u32 arithmetic. -/
def extraneous_cycles_from_looping (iteration_count : Nat) : Nat :=
  add32 (mul32 iteration_count ATOM_DELAY_SUCCESSFUL_ITERATION_CYCLES)
    ATOM_DELAY_FINAL_ITERATION_CYCLES

/-- Embeds `extraneous_iterations_from_looping` from `src/lib.rs`:
`extraneous_cycles_from_looping(iteration_count) / CYCLES_PER_ATOM`. -/
def extraneous_iterations_from_looping (iteration_count : Nat) : Nat :=
  extraneous_cycles_from_looping iteration_count / CYCLES_PER_ATOM

/-- Embeds `actual_iterations` from `src/lib.rs`:
`iteration_count - extraneous_iterations_from_looping(iteration_count)`,
an unchecked u32 subtraction (modelled wrapping). -/
def actual_iterations (iteration_count : Nat) : Nat :=
  sub32 iteration_count (extraneous_iterations_from_looping iteration_count)

/-- The iteration count the `delay_cycles!` macro solves for
(`src/lib.rs`): `actual_iterations(iterations_required(CYCLE_COUNT))`. -/
def delay_cycles_iterations (cycle_count : Nat) : Nat :=
  actual_iterations (iterations_required cycle_count)

/-- Embeds `cycle_count_micros` from `src/lib.rs` under const evaluation
(the macros place it in a `const` to force CTFE, where u32 overflow is a
build error): `micros * CYCLES_PER_MICROS`, checked. -/
def cycle_count_micros_const (micros : Nat) : Option Nat :=
  chkMul micros CYCLES_PER_MICROS

/-- The cycle count requested by `delay_us!` (`src/lib.rs`):
`cycle_count_micros(microseconds)`. -/
def delay_us_cycle_count (microseconds : Nat) : Option Nat :=
  cycle_count_micros_const microseconds

/-- The cycle count requested by `delay_ms!` (`src/lib.rs`):
`delay_us!(milliseconds * 1000)`, the multiplication again const-evaluated. -/
def delay_ms_cycle_count (milliseconds : Nat) : Option Nat :=
  (chkMul milliseconds 1000).bind delay_us_cycle_count

/-- Embeds `util::division_ceil` from `src/util.rs`: `(a + b - 1) / b` in
u32 arithmetic (the sum `a + b` wraps, then 1 is subtracted wrapping). -/
def division_ceil (a b : Nat) : Nat := sub32 (add32 a b) 1 / b

/-- From `src/nap.rs`: `NAP_STANDALONE_CYCLES = 21`. -/
def NAP_STANDALONE_CYCLES : Nat := 21

/-- From `src/nap.rs`: `CALL_INSTRUCTION_CYCLES = 4`. -/
def CALL_INSTRUCTION_CYCLES : Nat := 4

/-- From `src/nap.rs`: `CYCLES_PER_NAP = NAP_STANDALONE_CYCLES +
CALL_INSTRUCTION_CYCLES`. -/
def CYCLES_PER_NAP : Nat := NAP_STANDALONE_CYCLES + CALL_INSTRUCTION_CYCLES

/-- Embeds `naps_required` from `src/nap.rs`:
`util::division_ceil(cycles, CYCLES_PER_NAP)`. -/
def naps_required (cycles : Nat) : Nat := division_ceil cycles CYCLES_PER_NAP

/-- State of the control loop `delay_atom_iterations` (`src/lib.rs`):
either still looping with a remaining iteration counter (registers
r20..r23), or returned (`ret` after the `.done` label). -/
inductive LoopState : Type
  | Looping (remaining : Nat) : LoopState
  | Done : LoopState
deriving DecidableEq

/-- One pass through the `.iteration` block of `delay_atom_iterations`
(`src/lib.rs` inline asm): if the counter is zero, branch to `.done`;
otherwise `call delay_21_cycles` (one atom invocation, counted in the
second component) and decrement the counter by one. `Done` is terminal. -/
def loopStep : LoopState → LoopState × Nat
  | LoopState.Looping 0 => (LoopState.Done, 0)
  | LoopState.Looping (k + 1) => (LoopState.Looping k, 1)
  | LoopState.Done => (LoopState.Done, 0)

/-- Runs `loopStep` a given number of times, accumulating the number of
atom invocations performed. -/
def loopExec : Nat → LoopState → LoopState × Nat
  | 0, s => (s, 0)
  | k + 1, s =>
    let r := loopStep s
    let rest := loopExec k r.1
    (rest.1, r.2 + rest.2)

/-- Observable events of a delay request: `loopEnter` records control
reaching the `.iteration` label of `delay_atom_iterations`, `atomCall`
records a `call delay_21_cycles` instruction executing. -/
inductive DelayEvent : Type
  | loopEnter : DelayEvent
  | atomCall : DelayEvent
deriving DecidableEq

/-- Event trace of a call to `delay_atom_iterations` (`src/lib.rs`) with a
given iteration counter: every pass reaches `.iteration` and checks the
counter; a nonzero counter additionally calls the atom and loops back. -/
def delay_atom_iterations_events : Nat → List DelayEvent
  | 0 => [DelayEvent.loopEnter]
  | k + 1 => DelayEvent.loopEnter :: DelayEvent.atomCall ::
      delay_atom_iterations_events k

/-- Event trace of `delay_cycles!` (`src/lib.rs`): the macro invokes
`delay_atom_iterations(ITERATIONS)` unconditionally, with no zero guard. -/
def delay_cycles_events (cycle_count : Nat) : List DelayEvent :=
  delay_atom_iterations_events (delay_cycles_iterations cycle_count)

/-!
## Helper lemmas
-/

/-- Wrapping subtraction agrees with truncated subtraction when no
underflow occurs. -/
theorem sub32_eq_sub {a b : Nat} (ha : a < U32_MOD) (hb : b ≤ a) :
    sub32 a b = a - b := by
  unfold sub32 U32_MOD at *
  omega

/-- The extraneous-iteration correction never exceeds the naive iteration
count, for any u32 input: below `2^28` the intermediate `16*n + 7` does not
wrap and `(16*n + 7) / 25 ≤ n`; at and above `2^28` the quotient is capped
by `(2^32 - 1) / 25 < 2^28 ≤ n`. -/
theorem extraneous_le (n : Nat) (hn : n < U32_MOD) :
    extraneous_iterations_from_looping n ≤ n := by
  unfold extraneous_iterations_from_looping extraneous_cycles_from_looping
    add32 mul32 ATOM_DELAY_SUCCESSFUL_ITERATION_CYCLES
    ATOM_DELAY_FINAL_ITERATION_CYCLES CYCLES_PER_ATOM U32_MOD at *
  omega

/-- On inputs reachable from a u32 cycle count (naive iteration counts are
at most `(2^32 - 1) / 25`), no intermediate operation wraps and
`actual_iterations` is plain truncated arithmetic. -/
theorem actual_iterations_eq (n : Nat) (hn : n ≤ 171798691) :
    actual_iterations n = n - (n * 16 + 7) / 25 := by
  have h1 : n * 16 % U32_MOD = n * 16 := by
    unfold U32_MOD
    omega
  have h2 : (n * 16 + 7) % U32_MOD = n * 16 + 7 := by
    unfold U32_MOD
    omega
  unfold actual_iterations extraneous_iterations_from_looping
    extraneous_cycles_from_looping sub32 add32 mul32
    ATOM_DELAY_SUCCESSFUL_ITERATION_CYCLES ATOM_DELAY_FINAL_ITERATION_CYCLES
    CYCLES_PER_ATOM
  rw [h1, h2]
  unfold U32_MOD
  omega

/-!
## Claims
-/

/-- C2: the spec says the first solver step computes `N0 = ceil(C / 25)`
and that `C = 10` yields `N0 = 1`; evaluating the code at the failing
input `C = 10` shows `iterations_required` truncates instead:
`iterations_required 10 = 0`, not the claimed ceiling value 1 (and at
`C = 24` the zero atoms returned cover none of the 24 requested cycles,
contradicting the function's own documentation). -/
theorem claim_c2_at_10 :
    iterations_required 10 = 0 ∧ iterations_required 10 ≠ 1 ∧
      iterations_required 24 * CYCLES_PER_ATOM < 24 := by
  decide

/-- C4: every requested cycle count below `CYCLES_PER_ATOM = 25` solves to
zero iterations: `iterations_required` truncates to 0 and
`actual_iterations 0 = 0`. -/
theorem claim_c4_small_requests (c : Nat) (h : c < CYCLES_PER_ATOM) :
    delay_cycles_iterations c = 0 := by
  have h0 : iterations_required c = 0 := Nat.div_eq_of_lt h
  unfold delay_cycles_iterations
  rw [h0]
  decide

/-- C4 witness: the zero property `IterationCount(0) = 0`, by applying the
claim theorem at the concrete input 0. -/
theorem claim_c4_witness : delay_cycles_iterations 0 = 0 :=
  claim_c4_small_requests 0 (by decide)

/-- C1: the spec's design guarantee says
`IterationCount(C) * 25 + (IterationCount(C) * 16 + 7) >= C` whenever the
solved iteration count is positive; evaluating the code at the failing
input `C = 49` refutes it: the solver yields 1 iteration, which accounts
for only `1 * 25 + (1 * 16 + 7) = 48 < 49` cycles, contradicting the
module documentation's promise to delay for at least the requested
duration. -/
theorem claim_c1_at_49 :
    0 < delay_cycles_iterations 49 ∧
      delay_cycles_iterations 49 * CYCLES_PER_ATOM +
        (delay_cycles_iterations 49 * ATOM_DELAY_SUCCESSFUL_ITERATION_CYCLES +
          ATOM_DELAY_FINAL_ITERATION_CYCLES) < 49 := by
  decide

/-- C3 counterexample: the claim says a zero-cycle request causes no loop
entry at all, but `delay_cycles!` calls `delay_atom_iterations`
unconditionally, so control still reaches the `.iteration` label once: the
event trace of a zero-cycle request is exactly `[loopEnter]`. -/
theorem claim_c3_counterexample :
    delay_cycles_events 0 = [DelayEvent.loopEnter] ∧
      DelayEvent.loopEnter ∈ delay_cycles_events 0 := by
  decide

/-- C3 (amended): a zero-cycle request resolves to `IterationCount = 0`
and the loop performs no atom invocation, but `delay_atom_iterations` is
still invoked and executes the loop-condition check once before
returning. -/
theorem claim_c3_zero_request :
    delay_cycles_iterations 0 = 0 ∧
      DelayEvent.atomCall ∉ delay_cycles_events 0 ∧
      delay_cycles_events 0 = [DelayEvent.loopEnter] := by
  decide

/-- C5: for every u32 naive iteration count, the overhead correction never
exceeds the input, so the unchecked u32 subtraction in `actual_iterations`
never underflows, and the result equals `max 0 (N0 - OverheadAtoms)`. -/
theorem claim_c5_no_underflow (n : Nat) (hn : n < U32_MOD) :
    extraneous_iterations_from_looping n ≤ n ∧
      (actual_iterations n : Int) =
        max 0 ((n : Int) - (extraneous_iterations_from_looping n : Int)) := by
  have hE := extraneous_le n hn
  refine ⟨hE, ?_⟩
  have hs : actual_iterations n = n - extraneous_iterations_from_looping n :=
    sub32_eq_sub hn hE
  rw [hs, max_eq_right (by omega : (0 : Int) ≤
    (n : Int) - (extraneous_iterations_from_looping n : Int))]
  omega

/-- C5 witness: the subtraction bound and the `max` characterisation at the
concrete input 4. -/
theorem claim_c5_witness :
    extraneous_iterations_from_looping 4 ≤ 4 ∧
      (actual_iterations 4 : Int) =
        max 0 ((4 : Int) - (extraneous_iterations_from_looping 4 : Int)) :=
  claim_c5_no_underflow 4 (by decide)

/-- Naive iteration counts reachable from a u32 cycle count are bounded by
`(2^32 - 1) / 25 = 171798691`. -/
theorem iterations_required_bound (c : Nat) (hc : c < U32_MOD) :
    iterations_required c ≤ 171798691 := by
  unfold iterations_required CYCLES_PER_ATOM U32_MOD at *
  omega

/-- One step of the overhead-corrected iteration count: raising the naive
count by one never lowers the result, because the overhead quotient grows
by at most one. -/
theorem solved_mono_succ (k : Nat) :
    k - (k * 16 + 7) / 25 ≤ (k + 1) - ((k + 1) * 16 + 7) / 25 := by
  omega

/-- The overhead-corrected iteration count is monotone in the naive
iteration count. -/
theorem solved_mono : Monotone fun k : Nat => k - (k * 16 + 7) / 25 :=
  monotone_nat_of_le_succ solved_mono_succ

/-- C6: the solved iteration count is monotone in the requested u32 cycle
count. -/
theorem claim_c6_monotone (c₁ c₂ : Nat) (h : c₁ ≤ c₂) (h₂ : c₂ < U32_MOD) :
    delay_cycles_iterations c₁ ≤ delay_cycles_iterations c₂ := by
  have hdiv : iterations_required c₁ ≤ iterations_required c₂ :=
    Nat.div_le_div_right h
  have hb₂ : iterations_required c₂ ≤ 171798691 := iterations_required_bound c₂ h₂
  unfold delay_cycles_iterations
  rw [actual_iterations_eq _ (le_trans hdiv hb₂), actual_iterations_eq _ hb₂]
  exact solved_mono hdiv

/-- C6 witness: monotonicity at the concrete pair 10 ≤ 100. -/
theorem claim_c6_witness :
    delay_cycles_iterations 10 ≤ delay_cycles_iterations 100 :=
  claim_c6_monotone 10 100 (by decide) (by decide)

/-- Running the control loop from `Looping n` for `n + 1` steps performs
exactly `n` atom invocations and ends in `Done`. -/
theorem loopExec_run (n : Nat) :
    loopExec (n + 1) (LoopState.Looping n) = (LoopState.Done, n) := by
  induction n with
  | zero => rfl
  | succ k ih =>
    have h : loopExec (k + 2) (LoopState.Looping (k + 1)) =
        ((loopExec (k + 1) (LoopState.Looping k)).1,
          1 + (loopExec (k + 1) (LoopState.Looping k)).2) := rfl
    rw [h, ih]
    show (LoopState.Done, 1 + k) = (LoopState.Done, k + 1)
    rw [Nat.add_comm]

/-- C7: the control loop started in `Looping n` is total: it reaches the
terminal state `Done` after performing exactly `n` atom invocations, each
nonzero step invokes the atom once and decrements the counter by one, the
zero check exits without an atom call, and `Done` is terminal. -/
theorem claim_c7_loop_total (n : Nat) :
    loopExec (n + 1) (LoopState.Looping n) = (LoopState.Done, n) ∧
      loopStep (LoopState.Looping (n + 1)) = (LoopState.Looping n, 1) ∧
      loopStep (LoopState.Looping 0) = (LoopState.Done, 0) ∧
      loopStep LoopState.Done = (LoopState.Done, 0) :=
  ⟨loopExec_run n, rfl, rfl, rfl⟩

/-- C8: the duration conversion multiplies by the fixed constant
`CYCLES_PER_MICROS = 16_000_000 / 1_000_000 = 16`; whenever the product
fits in u32 the conversion yields exactly `us * 16`; `delay_ms!` requests
the cycles of `delay_us!(ms * 1000)`; and a 1-millisecond request converts
to 16000 cycles. -/
theorem claim_c8_unit_chain :
    CYCLES_PER_MICROS = 16 ∧
      (∀ us, us * 16 < U32_MOD → cycle_count_micros_const us = some (us * 16)) ∧
      (∀ ms, ms * 1000 < U32_MOD →
        delay_ms_cycle_count ms = delay_us_cycle_count (ms * 1000)) ∧
      delay_ms_cycle_count 1 = some 16000 := by
  refine ⟨rfl, ?_, ?_, by decide⟩
  · intro us h
    show chkMul us CYCLES_PER_MICROS = some (us * 16)
    have h16 : CYCLES_PER_MICROS = 16 := rfl
    rw [h16]
    unfold chkMul
    rw [if_pos h]
  · intro ms h
    unfold delay_ms_cycle_count chkMul
    rw [if_pos h]
    rfl

/-- C8 witness: `cycle_count_micros` at 1000 microseconds and the
millisecond-to-microsecond composition at 1 millisecond. -/
theorem claim_c8_witness :
    cycle_count_micros_const 1000 = some (1000 * 16) ∧
      delay_ms_cycle_count 1 = delay_us_cycle_count (1 * 1000) :=
  ⟨claim_c8_unit_chain.2.1 1000 (by decide),
   claim_c8_unit_chain.2.2.1 1 (by decide)⟩

/-- C9: the const-evaluated duration conversion never silently wraps: any
value it produces is exactly `us * 16`, and when the product would exceed
u32 the const evaluation fails (build error, modelled as `none`) rather
than truncating to a shorter delay. -/
theorem claim_c9_no_silent_wrap (us : Nat) :
    (∀ r, cycle_count_micros_const us = some r → r = us * 16) ∧
      (U32_MOD ≤ us * CYCLES_PER_MICROS → cycle_count_micros_const us = none) := by
  constructor
  · intro r hr
    unfold cycle_count_micros_const chkMul at hr
    by_cases h : us * CYCLES_PER_MICROS < U32_MOD
    · rw [if_pos h] at hr
      have h16 : CYCLES_PER_MICROS = 16 := rfl
      rw [h16] at hr
      exact (Option.some.inj hr).symm
    · rw [if_neg h] at hr
      exact Option.noConfusion hr
  · intro h
    unfold cycle_count_micros_const chkMul
    rw [if_neg (by omega)]

/-- C9 witness: the conversion is exact at 1000 microseconds, and const
evaluation fails at `2^28` microseconds, whose product is exactly `2^32`. -/
theorem claim_c9_witness :
    16000 = 1000 * 16 ∧ cycle_count_micros_const 268435456 = none :=
  ⟨(claim_c9_no_silent_wrap 1000).1 16000 (by decide),
   (claim_c9_no_silent_wrap 268435456).2 (by decide)⟩

/-- C10 counterexample: the claim says `division_ceil` returns the exact
ceiling for every u32 pair with positive divisor and that the sum
`a + b - 1` never wraps, but at `a = 4294967295`, `b = 25` the sum wraps
modulo `2^32` and the result is 0 instead of the ceiling 171798692, an
underestimate. -/
theorem claim_c10_counterexample :
    division_ceil 4294967295 25 = 0 ∧
      division_ceil 4294967295 25 ≠ 171798692 ∧
      division_ceil 4294967295 25 * 25 < 4294967295 := by
  decide

/-- When the sum `a + b` stays within u32, the wrapping operations in
`division_ceil` cancel and the result is the plain `(a + b - 1) / b`. -/
theorem division_ceil_eq (a b : Nat) (hb : 0 < b) (hM : a + b ≤ U32_MOD) :
    division_ceil a b = (a + b - 1) / b := by
  have h : sub32 (add32 a b) 1 = a + b - 1 := by
    unfold sub32 add32 U32_MOD at *
    omega
  unfold division_ceil
  rw [h]

/-- Exactness of the ceiling division on the non-wrapping domain: the
result is the least count whose multiples cover `a`. -/
theorem division_ceil_exact (a b : Nat) (hb : 0 < b) (hM : a + b ≤ U32_MOD) :
    a ≤ division_ceil a b * b ∧ division_ceil a b * b < a + b := by
  rw [division_ceil_eq a b hb hM]
  have h1 : b * ((a + b - 1) / b) + (a + b - 1) % b = a + b - 1 :=
    Nat.div_add_mod (a + b - 1) b
  have h2 : (a + b - 1) % b < b := Nat.mod_lt (a + b - 1) hb
  have hub : b * ((a + b - 1) / b) = (a + b - 1) - (a + b - 1) % b :=
    Nat.eq_sub_of_add_eq h1
  constructor
  · calc a ≤ (a + b - 1) - (a + b - 1) % b := by omega
      _ = b * ((a + b - 1) / b) := hub.symm
      _ = (a + b - 1) / b * b := Nat.mul_comm _ _
  · have hle : (a + b - 1) / b * b ≤ a + b - 1 := Nat.div_mul_le_self _ _
    omega

/-- C10 (amended): for every u32 pair with `b > 0` whose sum `a + b` stays
within u32 (so the intermediate `a + b - 1` does not wrap),
`division_ceil a b` is exactly the ceiling of `a / b`, and under the same
bound `naps_required` never underestimates the nap count. -/
theorem claim_c10_amended_thm (a b : Nat) (hb : 0 < b) (hM : a + b ≤ U32_MOD) :
    a ≤ division_ceil a b * b ∧ division_ceil a b * b < a + b ∧
      (a + CYCLES_PER_NAP ≤ U32_MOD → a ≤ naps_required a * CYCLES_PER_NAP) := by
  refine ⟨(division_ceil_exact a b hb hM).1, (division_ceil_exact a b hb hM).2,
    fun h => ?_⟩
  exact (division_ceil_exact a CYCLES_PER_NAP (by decide) h).1

/-- C10 witness: the amended exactness at `a = 7`, `b = 3`. -/
theorem claim_c10_witness :
    7 ≤ division_ceil 7 3 * 3 ∧ division_ceil 7 3 * 3 < 7 + 3 ∧
      (7 + CYCLES_PER_NAP ≤ U32_MOD → 7 ≤ naps_required 7 * CYCLES_PER_NAP) :=
  claim_c10_amended_thm 7 3 (by decide) (by decide)
